import Mathlib

/-!
Verification of the ProDeck slide-deck orchestration and package codec.

The definitions below are shallow embeddings of the TypeScript sources:
* `src/components/DeckBuilder.tsx` — slide data model (`Slide`), the sequential
  generation loop of `startGeneration` (lines 206-223), `handleEditSubmit`
  (lines 156-183), and the import path logic of `handlePPTUpload` (lines 43-133);
* `src/utils/pptxExport.ts` — `exportPresentation`;
* `src/services/gemini.ts`, `src/services/openai.ts`, `src/services/imageService.ts`
  — the per-call timeout configuration of the two image backends.

Network calls are abstracted as oracles: the result of one
`imageService.generateSlide` call for slide index `i` is `gen i : Option String`
(`none` models a rejected promise — error or timeout), and the result of one
`imageService.editSlide` call is `editRes : Option String`.
-/

namespace ProDeck

/-- The slide lifecycle state, from the `status` field of the `Slide` interface
in `DeckBuilder.tsx`: `pending | generating | done | error`. -/
inductive Status where
  | pending
  | generating
  | done
  | error
deriving DecidableEq, Repr

/-- The `Slide` interface of `DeckBuilder.tsx`: `imageData` is the optional
base64 data-URL payload (`undefined` is modelled as `none`). -/
structure Slide where
  slideNumber : Nat
  title : String
  visualPrompt : String
  imageData : Option String
  status : Status
deriving DecidableEq, Repr

/-- JavaScript truthiness of an optional string: `undefined` and the empty
string are falsy, every other string is truthy. -/
def truthy : Option String → Bool
  | none => false
  | some s => !(s == "")

/-- The status-only update at array index `i` used by the generation loop:
`setSlides(prev => prev.map((slide, idx) => idx === i ? { ...slide, status } : slide))`. -/
def setStatusAt (slides : List Slide) (i : Nat) (st : Status) : List Slide :=
  slides.mapIdx fun idx s => if idx = i then { s with status := st } else s

/-- The success update at array index `i` in the generation loop: the map
above with `{ ...slide, imageData, status: done }` on the matching index. -/
def setDoneAt (slides : List Slide) (i : Nat) (img : String) : List Slide :=
  slides.mapIdx fun idx s =>
    if idx = i then { s with imageData := some img, status := Status.done } else s

/-- One iteration of the sequential generation loop of `startGeneration`
(`DeckBuilder.tsx` lines 206-223).  The slide is first marked `generating`;
then the `imageService.generateSlide` call either succeeds (`gen i = some img`,
slide marked `done` with the image) or throws (`gen i = none`, the `catch`
marks the slide `error`).  The second component accumulates the emitted
`(index, new status)` transition events, two per iteration. -/
def generateStep (gen : Nat → Option String) (acc : List Slide × List (Nat × Status))
    (i : Nat) : List Slide × List (Nat × Status) :=
  match gen i with
  | some img =>
      (setDoneAt (setStatusAt acc.1 i Status.generating) i img,
       acc.2 ++ [(i, Status.generating), (i, Status.done)])
  | none =>
      (setStatusAt (setStatusAt acc.1 i Status.generating) i Status.error,
       acc.2 ++ [(i, Status.generating), (i, Status.error)])

/-- The whole `for (let i = 0; i < initialSlides.length; i++)` loop of
`startGeneration`: a left fold of `generateStep` over the indices, returning
the final slide list and the ordered list of emitted transition events. -/
def generateAll (gen : Nat → Option String) (slides : List Slide) :
    List Slide × List (Nat × Status) :=
  (List.range slides.length).foldl (generateStep gen) (slides, [])

/-- The net effect of the loop iteration for index `j` on the slide that
occupies position `j`: success yields `done` with the new image, failure
yields `error` with everything else untouched. -/
def genResult (gen : Nat → Option String) (j : Nat) (s : Slide) : Slide :=
  match gen j with
  | some img => { s with imageData := some img, status := Status.done }
  | none => { s with status := Status.error }

theorem getElem?_setStatusAt (l : List Slide) (i : Nat) (st : Status) (j : Nat) :
    (setStatusAt l i st)[j]? =
      (l[j]?).map (fun s => if j = i then { s with status := st } else s) := by
  simp [setStatusAt]

theorem getElem?_setDoneAt (l : List Slide) (i : Nat) (img : String) (j : Nat) :
    (setDoneAt l i img)[j]? =
      (l[j]?).map
        (fun s => if j = i then { s with imageData := some img, status := Status.done } else s) := by
  simp [setDoneAt]

theorem length_setStatusAt (l : List Slide) (i : Nat) (st : Status) :
    (setStatusAt l i st).length = l.length := by
  simp [setStatusAt]

theorem generateStep_fst_getElem?_ne (gen : Nat → Option String)
    (acc : List Slide × List (Nat × Status)) (i j : Nat) (hij : j ≠ i) :
    ((generateStep gen acc i).1)[j]? = acc.1[j]? := by
  cases h : gen i <;>
    cases hj : acc.1[j]? <;>
      simp [generateStep, h, getElem?_setStatusAt, getElem?_setDoneAt, hj, hij]

theorem generateStep_fst_getElem?_self (gen : Nat → Option String)
    (acc : List Slide × List (Nat × Status)) (i : Nat) :
    ((generateStep gen acc i).1)[i]? = (acc.1[i]?).map (genResult gen i) := by
  cases h : gen i <;>
    cases hj : acc.1[i]? <;>
      simp [generateStep, h, getElem?_setStatusAt, getElem?_setDoneAt, hj, genResult]

theorem foldl_generateStep_fst_getElem?_ge (gen : Nat → Option String) (n : Nat) :
    ∀ (acc : List Slide × List (Nat × Status)) (j : Nat), n ≤ j →
      (((List.range n).foldl (generateStep gen) acc).1)[j]? = acc.1[j]? := by
  induction n with
  | zero => intro acc j _; simp
  | succ n ih =>
      intro acc j hj
      rw [List.range_succ, List.foldl_append, List.foldl_cons, List.foldl_nil]
      rw [generateStep_fst_getElem?_ne gen _ n j (by omega)]
      exact ih acc j (by omega)

theorem foldl_generateStep_fst_getElem?_lt (gen : Nat → Option String) (n : Nat) :
    ∀ (acc : List Slide × List (Nat × Status)) (j : Nat), j < n →
      (((List.range n).foldl (generateStep gen) acc).1)[j]? =
        (acc.1[j]?).map (genResult gen j) := by
  induction n with
  | zero => intro acc j hj; omega
  | succ n ih =>
      intro acc j hj
      rw [List.range_succ, List.foldl_append, List.foldl_cons, List.foldl_nil]
      by_cases h : j < n
      · rw [generateStep_fst_getElem?_ne gen _ n j (by omega)]
        exact ih acc j h
      · have hjn : j = n := by omega
        rw [hjn, generateStep_fst_getElem?_self,
          foldl_generateStep_fst_getElem?_ge gen n acc n (Nat.le_refl n)]

/-- Closed form for the final slide list of the batch loop: position `j` of the
result is position `j` of the input transformed by `genResult gen j`. -/
theorem generateAll_fst_getElem? (gen : Nat → Option String) (slides : List Slide) (j : Nat) :
    ((generateAll gen slides).1)[j]? = (slides[j]?).map (genResult gen j) := by
  by_cases h : j < slides.length
  · exact foldl_generateStep_fst_getElem?_lt gen slides.length (slides, []) j h
  · rw [generateAll, foldl_generateStep_fst_getElem?_ge gen slides.length (slides, []) j (by omega)]
    show slides[j]? = (slides[j]?).map (genResult gen j)
    rw [List.getElem?_eq_none (by omega)]
    rfl

theorem generateStep_snd (gen : Nat → Option String)
    (acc : List Slide × List (Nat × Status)) (i : Nat) :
    (generateStep gen acc i).2 =
      acc.2 ++ [(i, Status.generating),
                (i, if (gen i).isSome then Status.done else Status.error)] := by
  cases h : gen i <;> simp [generateStep, h]

theorem foldl_generateStep_snd (gen : Nat → Option String) (n : Nat) :
    ∀ acc : List Slide × List (Nat × Status),
      (((List.range n).foldl (generateStep gen) acc).2) =
        acc.2 ++ (List.range n).flatMap
          (fun i => [(i, Status.generating),
                     (i, if (gen i).isSome then Status.done else Status.error)]) := by
  induction n with
  | zero => intro acc; simp
  | succ n ih =>
      intro acc
      rw [List.range_succ, List.foldl_append, List.foldl_cons, List.foldl_nil]
      rw [generateStep_snd, ih acc, List.flatMap_append]
      simp

/-- JavaScript `s.trim()`: strip leading and trailing whitespace characters.
(JS also strips some Unicode spaces; the ASCII whitespace handling relevant
here is identical.) -/
def jsTrim (s : String) : String :=
  ⟨((s.data.dropWhile Char.isWhitespace).reverse.dropWhile Char.isWhitespace).reverse⟩

/-- The repeated `setSlides(prev => prev.map(s => s.slideNumber === slideNumber ? ... : s))`
pattern of `handleEditSubmit`: replace every slide matching `slideNumber` by `f`
applied to it, leaving the others untouched. -/
def updateBySlideNumber (slides : List Slide) (slideNumber : Nat) (f : Slide → Slide) :
    List Slide :=
  slides.map fun s => if s.slideNumber == slideNumber then f s else s

/-- The function `handleEditSubmit` from `DeckBuilder.tsx` (lines 156-183).  Guards: a blank
(`trim`-empty) instruction, an unmatched `slideNumber`, and a falsy `imageData`
each return with no state change.  Otherwise the matching slide is marked
`generating`, and the `imageService.editSlide` call (oracle `editRes`) either
replaces the image and marks the slide `done`, or throws, in which case the
`catch` marks the slide `error` and logs the failure.  The boolean result
records whether an error was logged (`console.error` in the `catch`). -/
def handleEditSubmit (editRes : Option String) (slides : List Slide)
    (slideNumber : Nat) (editInstruction : String) : List Slide × Bool :=
  if jsTrim editInstruction == "" then (slides, false)
  else
    match slides.find? (fun s => s.slideNumber == slideNumber) with
    | none => (slides, false)
    | some currentSlide =>
        if truthy currentSlide.imageData then
          let afterGenerating :=
            updateBySlideNumber slides slideNumber
              (fun s => { s with status := Status.generating })
          match editRes with
          | some newImageData =>
              (updateBySlideNumber afterGenerating slideNumber
                 (fun s => { s with imageData := some newImageData, status := Status.done }),
               false)
          | none =>
              (updateBySlideNumber afterGenerating slideNumber
                 (fun s => { s with status := Status.error }),
               true)
        else (slides, false)

theorem updateBySlideNumber_comp (l : List Slide) (n : Nat) (f g : Slide → Slide)
    (hf : ∀ s, (f s).slideNumber = s.slideNumber) :
    updateBySlideNumber (updateBySlideNumber l n f) n g =
      updateBySlideNumber l n (fun s => g (f s)) := by
  simp only [updateBySlideNumber, List.map_map]
  apply List.map_congr_left
  intro s _
  by_cases h : (s.slideNumber == n) = true
  · have hfn : ((f s).slideNumber == n) = true := by rw [hf s]; exact h
    simp [Function.comp, h, hfn]
  · simp [Function.comp, h]

theorem updateBySlideNumber_map_imageData (l : List Slide) (n : Nat) (f : Slide → Slide)
    (hf : ∀ s, (f s).imageData = s.imageData) :
    (updateBySlideNumber l n f).map Slide.imageData = l.map Slide.imageData := by
  simp only [updateBySlideNumber, List.map_map]
  apply List.map_congr_left
  intro s _
  by_cases h : s.slideNumber == n <;> simp [Function.comp, h, hf]

/-- On the accepted edit-failure path, `handleEditSubmit` collapses to a single
status-only update: every matching slide is marked `error`, nothing else moves. -/
theorem handleEditSubmit_fail_eq (slides : List Slide) (slideNumber : Nat)
    (editInstruction : String) (currentSlide : Slide)
    (h1 : ¬ jsTrim editInstruction = "")
    (h2 : slides.find? (fun s => s.slideNumber == slideNumber) = some currentSlide)
    (h3 : truthy currentSlide.imageData = true) :
    handleEditSubmit none slides slideNumber editInstruction =
      (updateBySlideNumber slides slideNumber (fun s => { s with status := Status.error }),
       true) := by
  rw [handleEditSubmit, if_neg (by simpa using h1), h2]
  simp only [h3, if_pos]
  rw [updateBySlideNumber_comp slides slideNumber
    (fun s => { s with status := Status.generating })
    (fun s => { s with status := Status.error }) (fun s => rfl)]

/-- JavaScript `s.startsWith(pre)`: the characters of `pre` are an initial
segment of the characters of `s`. -/
def jsStartsWith (s pre : String) : Bool :=
  pre.data.isPrefixOf s.data

/-- Character-level worker for `jsReplaceFirst`: replace the first occurrence
of `pat` in the list by `repl`; if `pat` never occurs, return the list. -/
def replaceFirstAux (pat repl : List Char) : List Char → List Char
  | [] => []
  | c :: cs =>
      if pat.isPrefixOf (c :: cs) then repl ++ (c :: cs).drop pat.length
      else c :: replaceFirstAux pat repl cs

/-- JavaScript `s.replace(pat, repl)` with a string pattern: only the FIRST
occurrence of `pat` is replaced (unlike the library `String.replace`, which
replaces every occurrence). -/
def jsReplaceFirst (s pat repl : String) : String :=
  ⟨replaceFirstAux pat.data repl.data s.data⟩

/-- The relationship-target resolution of `handlePPTUpload`
(`DeckBuilder.tsx` lines 88-96): when the target starts with `../` the result
is `ppt/` plus the target with `../` replaced by the empty string, otherwise
the result is `ppt/slides/` plus the target. -/
def resolveTarget (targetPath : String) : String :=
  if jsStartsWith targetPath "../" then "ppt/" ++ jsReplaceFirst targetPath "../" ""
  else "ppt/slides/" ++ targetPath

/-- JavaScript `parseInt` applied to the digit group captured by
`/slide(\d+)\.xml/`: the usual base-10 value of a digit string. -/
def digitsVal (s : String) : Nat :=
  s.data.foldl (fun n c => n * 10 + (c.toNat - 48)) 0

/-- The filter `path.match(/^ppt\/slides\/slide\d+\.xml$/)` of
`handlePPTUpload`: the path is `ppt/slides/slide`, then one or more digits,
then `.xml`. -/
def isSlidePath (path : String) : Bool :=
  let cs := path.data
  let pre := "ppt/slides/slide".data
  let suf := ".xml".data
  pre.isPrefixOf cs &&
    (let rest := cs.drop pre.length
     decide (suf.length ≤ rest.length) &&
       (rest.drop (rest.length - suf.length) == suf &&
         (let mid := rest.take (rest.length - suf.length)
          !(mid == []) && mid.all Char.isDigit)))

/-- The slide ordinal parsed from a matching slide-document path:
`parseInt(path.match(/slide(\d+)\.xml/)[1])`.  On paths accepted by
`isSlidePath` the digit group is exactly the characters between the
16-character directory prefix and the 4-character `.xml` suffix. -/
def slideNumOf (path : String) : Nat :=
  digitsVal ⟨(path.data.drop 16).take (path.data.length - 20)⟩

/-- The slide-document enumeration of `handlePPTUpload` (lines 54-60): filter
the entry names of the container by the slide-path pattern and sort ascending
by the parsed ordinal (`(a, b) => numA - numB`). -/
def slideFiles (keys : List String) : List String :=
  (keys.filter isSlidePath).mergeSort (fun a b => slideNumOf a ≤ slideNumOf b)

/-- The relationship-document path transform of `handlePPTUpload` (line 67):
replace the first `ppt/slides/` by `ppt/slides/_rels/` and append `.rels`. -/
def relPathOf (slidePath : String) : String :=
  jsReplaceFirst slidePath "ppt/slides/" "ppt/slides/_rels/" ++ ".rels"

/-- Mime-type inference of `handlePPTUpload` (lines 102-104): the last
dot-separated component of the path (defaulting to `png` when falsy), with
`jpg`/`jpeg` mapped to JPEG and everything else to PNG. -/
def mimeOf (fullPath : String) : String :=
  let e := (fullPath.splitOn ".").getLastD ""
  let imgExt := if e == "" then "png" else e
  if imgExt == "jpg" || imgExt == "jpeg" then "image/jpeg" else "image/png"

/-- The per-slide-document body of the import loop (lines 62-116).  The XML
layer is abstracted by two oracles: `relTarget` maps a relationship-document
path to the `Target` of its first image-typed `Relationship` (`none` when the
relationship document is missing, `some ""` when no image relationship is
found, matching the falsy-`targetPath` skip in the code), and `fileData` maps a
container entry name to its base64 content (`none` when the entry is missing).
A slide that resolves yields a `done` record carrying a data-URL image. -/
def importEntry (relTarget fileData : String → Option String) (slidePath : String) :
    Option Slide :=
  match relTarget (relPathOf slidePath) with
  | none => none
  | some targetPath =>
      if targetPath == "" then none
      else
        match fileData (resolveTarget targetPath) with
        | none => none
        | some imgBase64 =>
            some { slideNumber := slideNumOf slidePath,
                   title := "Imported Slide " ++ toString (slideNumOf slidePath),
                   visualPrompt := "Imported slide content",
                   imageData :=
                     some ("data:" ++ mimeOf (resolveTarget targetPath) ++ ";base64," ++ imgBase64),
                   status := Status.done }

/-- The whole import of `handlePPTUpload`: enumerate and numerically sort the
slide documents, then resolve each one, silently skipping slides without a
resolvable image. -/
def importSlides (keys : List String) (relTarget fileData : String → Option String) :
    List Slide :=
  (slideFiles keys).filterMap (importEntry relTarget fileData)

/-- One slide of the exported container: a single image placed at the origin
and stretched to 100% of the slide width and height (`pptxExport.ts`,
`s.addImage({ data, x: 0, y: 0, w: "100%", h: "100%" })`). -/
structure ExportedSlide where
  data : String
  x : Nat
  y : Nat
  w : String
  h : String
deriving DecidableEq, Repr

/-- The full-bleed image slide built by `exportPresentation` for one image. -/
def addImageFull (d : String) : ExportedSlide :=
  { data := d, x := 0, y := 0, w := "100%", h := "100%" }

/-- `exportPresentation` from `pptxExport.ts`: for each entry, if its
`imageData` is truthy, append one full-bleed image slide to the container. -/
def exportPresentation (slides : List Slide) : List ExportedSlide :=
  slides.foldl
    (fun pptx slide =>
      if truthy slide.imageData then pptx ++ [addImageFull (slide.imageData.getD "")]
      else pptx)
    []

/-- The backend selector of `imageService.ts`: `type ImageModel = gemini | openai`. -/
inductive ImageModel where
  | gemini
  | openai
deriving DecidableEq, Repr, Fintype

/-- The two network operations each backend offers. -/
inductive CallKind where
  | generate
  | edit
deriving DecidableEq, Repr, Fintype

/-- The client-side time bound of one network call, in milliseconds (`none`
when the code installs no timeout). -/
structure NetworkCallSpec where
  timeoutMs : Option Nat
deriving DecidableEq, Repr

/-- In `gemini.ts`, `GeminiService.generateSlide` races the request against
`setTimeout(..., 45000)`. -/
def geminiGenerateCall : NetworkCallSpec := { timeoutMs := some 45000 }

/-- In `gemini.ts`, `GeminiService.editSlide` races the request against
`setTimeout(..., 45000)`. -/
def geminiEditCall : NetworkCallSpec := { timeoutMs := some 45000 }

/-- In `openai.ts`, `OpenAIService.generateSlide` issues a bare `fetch` with
no abort signal and no timeout. -/
def openAIGenerateCall : NetworkCallSpec := { timeoutMs := none }

/-- In `openai.ts`, `OpenAIService.editSlide` issues a bare `fetch` with no
abort signal and no timeout. -/
def openAIEditCall : NetworkCallSpec := { timeoutMs := none }

/-- The dispatch of `imageService.ts`: selecting the openai model routes to the OpenAI
backend, anything else the Gemini backend, for both operations. -/
def imageServiceCall (model : ImageModel) : CallKind → NetworkCallSpec
  | CallKind.generate =>
      if model = ImageModel.openai then openAIGenerateCall else geminiGenerateCall
  | CallKind.edit =>
      if model = ImageModel.openai then openAIEditCall else geminiEditCall

/-- A generation oracle on which every call fails. -/
def cexGen : Nat → Option String := fun _ => none

/-- A pending planned slide used as a concrete fixture. -/
def wSlideA : Slide :=
  { slideNumber := 1, title := "A", visualPrompt := "pa", imageData := none,
    status := Status.pending }

/-- A second pending planned slide used as a concrete fixture. -/
def wSlideB : Slide :=
  { slideNumber := 2, title := "B", visualPrompt := "pb", imageData := none,
    status := Status.pending }

/-- A completed slide carrying an image, used as a concrete fixture. -/
def wDoneSlide : Slide :=
  { slideNumber := 1, title := "T", visualPrompt := "vp",
    imageData := some "data:image/png;base64,AAAA", status := Status.done }

theorem exportPresentation_foldl (l : List Slide) :
    ∀ acc : List ExportedSlide,
      l.foldl
          (fun pptx slide =>
            if truthy slide.imageData then pptx ++ [addImageFull (slide.imageData.getD "")]
            else pptx)
          acc =
        acc ++ (l.filter (fun s => truthy s.imageData)).map
          (fun s => addImageFull (s.imageData.getD "")) := by
  induction l with
  | nil => intro acc; simp
  | cons a l ih =>
      intro acc
      rw [List.foldl_cons, List.filter_cons]
      by_cases h : truthy a.imageData = true <;> simp [h, ih]

/-- C1: the batch loop of `startGeneration` over N planned slides emits exactly
N `Generating`→(`Done`|`Failed`) transition pairs, one pair per slide index and
strictly in position order: the pair of index i is complete before the pair of
index i+1 begins, a failing call closes its own pair with `Failed`, and the loop still
visits every remaining index — no failure aborts the batch. -/
theorem C1_generateAll_transition_pairs (gen : Nat → Option String) (slides : List Slide) :
    (generateAll gen slides).2 =
      (List.range slides.length).flatMap
        (fun i => [(i, Status.generating),
                   (i, if (gen i).isSome then Status.done else Status.error)]) := by
  rw [generateAll, foldl_generateStep_snd]
  rfl

/-- C8: when the generation call for slide i fails, the failure transition of the
batch loop leaves every other position j of the deck — its state, image,
title and visualPrompt, i.e. the whole slide record — unchanged. -/
theorem C8_failure_frame (gen : Nat → Option String)
    (acc : List Slide × List (Nat × Status)) (i j : Nat)
    (hfail : gen i = none) (hij : j ≠ i) :
    ((generateStep gen acc i).1)[j]? = acc.1[j]? :=
  generateStep_fst_getElem?_ne gen acc i j hij

theorem C8_failure_frame_witness :
    ((generateStep cexGen ([wSlideA, wSlideB], []) 0).1)[1]? = [wSlideA, wSlideB][1]? :=
  C8_failure_frame cexGen ([wSlideA, wSlideB], []) 0 1 rfl (by decide)

/-- C10: submitting an edit with a blank (empty or whitespace-only)
instruction, or against a slideNumber that matches no slide of the deck,
returns with every slide untouched and no error reported — a silent no-op. -/
theorem C10_edit_silent_noop (editRes : Option String) (slides : List Slide)
    (slideNumber : Nat) (instr : String)
    (h : jsTrim instr = "" ∨ slides.find? (fun s => s.slideNumber == slideNumber) = none) :
    handleEditSubmit editRes slides slideNumber instr = (slides, false) := by
  rcases h with h | h
  · rw [handleEditSubmit, if_pos (by simpa using h)]
  · rw [handleEditSubmit]
    by_cases ht : (jsTrim instr == "") = true
    · rw [if_pos ht]
    · rw [if_neg ht, h]

theorem C10_edit_silent_noop_witness :
    handleEditSubmit (some "x") [wDoneSlide] 5 " \t " = ([wDoneSlide], false) :=
  C10_edit_silent_noop (some "x") [wDoneSlide] 5 " \t " (Or.inl (by decide))

/-- C4: an edit of a Done slide whose `imageService.editSlide` call fails
leaves the image payload of every slide — the edited one included —
byte-identical to its pre-edit value, while the state of the edited slide becomes
`Failed`: the whole operation collapses to a status-only `error` update. -/
theorem C4_edit_failure_preserves_image (slides : List Slide) (slideNumber : Nat)
    (instr : String) (currentSlide : Slide)
    (h1 : ¬ jsTrim instr = "")
    (h2 : slides.find? (fun s => s.slideNumber == slideNumber) = some currentSlide)
    (h3 : currentSlide.status = Status.done)
    (h4 : truthy currentSlide.imageData = true) :
    ((handleEditSubmit none slides slideNumber instr).1).map Slide.imageData =
        slides.map Slide.imageData ∧
      (handleEditSubmit none slides slideNumber instr).1 =
        updateBySlideNumber slides slideNumber (fun s => { s with status := Status.error }) := by
  have h := handleEditSubmit_fail_eq slides slideNumber instr currentSlide h1 h2 h4
  refine ⟨?_, ?_⟩
  · rw [h]
    exact updateBySlideNumber_map_imageData _ _ _ (fun s => rfl)
  · rw [h]

theorem C4_edit_failure_preserves_image_witness :
    ((handleEditSubmit none [wDoneSlide] 1 "darker").1).map Slide.imageData =
        [wDoneSlide].map Slide.imageData ∧
      (handleEditSubmit none [wDoneSlide] 1 "darker").1 =
        updateBySlideNumber [wDoneSlide] 1 (fun s => { s with status := Status.error }) :=
  C4_edit_failure_preserves_image [wDoneSlide] 1 "darker" wDoneSlide
    (by decide) (by decide) (by decide) (by decide)

/-- C7: export emits one full-bleed image slide for exactly the entries whose
image is present, in the input order (the output is the image-bearing
subsequence mapped to slides), and a deck with zero image-bearing entries
yields a container with zero slides rather than an error. -/
theorem C7_export_spec (slides : List Slide) :
    exportPresentation slides =
        (slides.filter (fun s => truthy s.imageData)).map
          (fun s => addImageFull (s.imageData.getD "")) ∧
      (slides.countP (fun s => truthy s.imageData) = 0 → exportPresentation slides = []) := by
  have h := exportPresentation_foldl slides []
  refine ⟨by simpa [exportPresentation] using h, ?_⟩
  intro h0
  have hfil : slides.filter (fun s => truthy s.imageData) = [] := by
    rw [← List.length_eq_zero, ← List.countP_eq_length_filter]
    exact h0
  rw [exportPresentation]
  show slides.foldl _ [] = []
  rw [h, hfil]
  rfl

theorem C7_export_spec_witness :
    exportPresentation [wSlideA, wSlideB] = [] :=
  (C7_export_spec [wSlideA, wSlideB]).2 (by decide)

/-- C9 as stated is false: not every generation/edit call of both backends is
bounded by the 45-second timeout — the OpenAI backend installs none. -/
theorem C9_counterexample :
    ¬ ∀ (model : ImageModel) (k : CallKind),
        (imageServiceCall model k).timeoutMs = some 45000 := by
  decide

/-- C9 amended: the Gemini backend bounds both its generate and edit calls by
the fixed 45-second (45000 ms) timeout, while the calls of the OpenAI backend carry
no client-side timeout at all; a rejected generation call — timeout expiry
included — is treated as a failure scoped to that slide, which ends the batch
in `Failed` with its other fields intact. -/
theorem C9_amended_timeouts :
    (∀ k, (imageServiceCall ImageModel.gemini k).timeoutMs = some 45000) ∧
      (∀ k, (imageServiceCall ImageModel.openai k).timeoutMs = none) ∧
      ∀ (gen : Nat → Option String) (slides : List Slide) (i : Nat), gen i = none →
        ((generateAll gen slides).1)[i]? =
          (slides[i]?).map (fun s => { s with status := Status.error }) := by
  refine ⟨by decide, by decide, ?_⟩
  intro gen slides i hfail
  rw [generateAll_fst_getElem?]
  cases slides[i]? <;> simp [genResult, hfail]

theorem C9_amended_timeouts_witness :
    ((generateAll cexGen [wSlideA]).1)[0]? =
      ([wSlideA][0]?).map (fun s => { s with status := Status.error }) :=
  C9_amended_timeouts.2.2 cexGen [wSlideA] 0 rfl

/-- The invariant claimed for every slide: the image payload is present
exactly when the state is `done`. -/
def imageIffDone (s : Slide) : Bool :=
  s.imageData.isSome == (s.status == Status.done)

/-- C2 counterexample: a deck holding one Done slide with an image satisfies
the invariant, but after an edit whose `editSlide` call fails the slide is
`Failed` yet still carries its image — the invariant is violated after the
edit operation. -/
theorem C2_counterexample :
    [wDoneSlide].all imageIffDone = true ∧
      ((handleEditSubmit none [wDoneSlide] 1 "darker").1).all imageIffDone = false := by
  decide

/-- C2 amended: after planning plus batch generation (planned slides start
with no image), and after import, the image of every slide is present iff its
state is `done`; the edit operation, however, preserves the existing image of each slide
unchanged on its failure path, so a slide whose edit failed is `Failed` while
still carrying its pre-edit image. -/
theorem C2_amended_invariant :
    (∀ (gen : Nat → Option String) (slides : List Slide),
        slides.all (fun s => s.imageData == none) = true →
        ((generateAll gen slides).1).all imageIffDone = true) ∧
      (∀ (keys : List String) (relTarget fileData : String → Option String),
        (importSlides keys relTarget fileData).all
          (fun s => imageIffDone s && (s.status == Status.done)) = true) ∧
      ∀ (slides : List Slide) (slideNumber : Nat) (instr : String),
        ((handleEditSubmit none slides slideNumber instr).1).map Slide.imageData =
          slides.map Slide.imageData := by
  refine ⟨?_, ?_, ?_⟩
  · intro gen slides hall
    rw [List.all_eq_true] at hall ⊢
    intro s hs
    rw [List.mem_iff_getElem?] at hs
    obtain ⟨j, hj⟩ := hs
    rw [generateAll_fst_getElem?] at hj
    cases ho : slides[j]? with
    | none => rw [ho] at hj; exact absurd hj (by simp)
    | some s0 =>
        rw [ho] at hj
        have hs0 : s0 ∈ slides := List.getElem?_mem ho
        have himg : s0.imageData = none := by simpa using hall s0 hs0
        have hjs : genResult gen j s0 = s := by simpa using hj
        cases hg : gen j <;>
          rw [← hjs] <;> simp [genResult, hg, imageIffDone, himg]
  · intro keys relTarget fileData
    rw [List.all_eq_true]
    intro s hs
    rw [importSlides, List.mem_filterMap] at hs
    obtain ⟨p, -, hp⟩ := hs
    unfold importEntry at hp
    split at hp
    · exact absurd hp (by simp)
    · split at hp
      · exact absurd hp (by simp)
      · split at hp
        · exact absurd hp (by simp)
        · cases hp
          rfl
  · intro slides slideNumber instr
    by_cases h1 : (jsTrim instr == "") = true
    · simp [handleEditSubmit, h1]
    · cases h2 : slides.find? (fun s => s.slideNumber == slideNumber) with
      | none => simp [handleEditSubmit, h1, h2]
      | some cs =>
          by_cases h3 : truthy cs.imageData = true
          · have h := handleEditSubmit_fail_eq slides slideNumber instr cs
              (by simpa using h1) h2 h3
            rw [h]
            exact updateBySlideNumber_map_imageData _ _ _ (fun s => rfl)
          · simp [handleEditSubmit, h1, h2, h3]

/-- A failing generation oracle for even indices, succeeding on odd ones. -/
def wGen : Nat → Option String :=
  fun i => if i = 1 then none else some "data:image/png;base64,QQ=="

theorem C2_amended_invariant_witness :
    ((generateAll wGen [wSlideA, wSlideB]).1).all imageIffDone = true :=
  C2_amended_invariant.1 wGen [wSlideA, wSlideB] (by decide)

/-- A Failed slide still carrying an image — the state a Done slide reaches
after a failed edit. -/
def wErrSlideWithImage : Slide :=
  { slideNumber := 1, title := "T", visualPrompt := "vp",
    imageData := some "data:image/png;base64,AAAA", status := Status.error }

/-- C3 counterexample: a slide whose state is `Failed` (not Done) but which
still carries an image — exactly the state a failed edit leaves behind — is
not rejected by `handleEditSubmit`: the deck changes. -/
theorem C3_counterexample :
    wErrSlideWithImage.status ≠ Status.done ∧
      (handleEditSubmit (some "data:image/png;base64,BBBB")
          [wErrSlideWithImage] 1 "fix the typo").1 ≠
        [wErrSlideWithImage] := by
  decide

/-- C3 amended: the edit guard tests image presence, not Done state: an edit
aimed at a slide that carries no image (which covers freshly planned Pending
slides, batch-Generating slides and generation-Failed slides) is rejected with
every slide of the deck left unchanged, while a non-Done slide that still
carries an image (a slide whose previous edit failed) is accepted. -/
theorem C3_amended_reject_no_image (editRes : Option String) (slides : List Slide)
    (slideNumber : Nat) (instr : String) (currentSlide : Slide)
    (h2 : slides.find? (fun s => s.slideNumber == slideNumber) = some currentSlide)
    (h4 : truthy currentSlide.imageData = false) :
    handleEditSubmit editRes slides slideNumber instr = (slides, false) := by
  rw [handleEditSubmit]
  by_cases h1 : (jsTrim instr == "") = true
  · rw [if_pos h1]
  · rw [if_neg h1, h2]
    simp [h4]

theorem C3_amended_reject_no_image_witness :
    handleEditSubmit (some "x") [wSlideA] 1 "fix it" = ([wSlideA], false) :=
  C3_amended_reject_no_image (some "x") [wSlideA] 1 "fix it" wSlideA
    (by decide) (by decide)

/-- Strip every leading parent-directory marker from a character list. -/
def dropParentMarkersAux : List Char → List Char
  | '.' :: '.' :: '/' :: rest => dropParentMarkersAux rest
  | cs => cs

/-- Modelled from the spec: rebasing a parent-marker target "onto the shared
media root under ppt/" — every leading parent-directory marker removed and the
remainder placed under the `ppt/` root (so `../media/x` and `../../media/x`
would both land on `ppt/media/x`). -/
def rebaseOntoMediaRoot (t : String) : String :=
  "ppt/" ++ ⟨dropParentMarkersAux t.data⟩

/-- C6 counterexample: a target with two parent-directory markers is NOT
rebased onto the shared media root — only the first marker is replaced, and
the resolved path keeps a literal `../` segment. -/
theorem C6_counterexample :
    resolveTarget "../../media/image1.png" = "ppt/../media/image1.png" ∧
      resolveTarget "../../media/image1.png" ≠
        rebaseOntoMediaRoot "../../media/image1.png" := by
  decide

/-- C6 amended: a target beginning with `../` has exactly its first (leading)
parent-directory marker replaced by the `ppt/` prefix — JavaScript
`String.replace` with a string pattern replaces only the first occurrence — so
a single-marker target lands in the shared media root under `ppt/`, while any
further markers survive verbatim in the resolved path; every target not
beginning with `../` resolves relative to `ppt/slides/`. -/
theorem C6_amended_resolveTarget (t : String) :
    (jsStartsWith t "../" = true → resolveTarget t = "ppt/" ++ ⟨t.data.drop 3⟩) ∧
      (jsStartsWith t "../" = false → resolveTarget t = "ppt/slides/" ++ t) := by
  refine ⟨?_, ?_⟩
  · intro h
    rw [resolveTarget, if_pos h]
    have hpre : "../".data.isPrefixOf t.data = true := h
    congr 1
    rw [jsReplaceFirst]
    cases hcs : t.data with
    | nil => rw [hcs] at hpre; exact absurd hpre (by decide)
    | cons c cs =>
        rw [hcs] at hpre
        show (⟨replaceFirstAux "../".data "".data (c :: cs)⟩ : String) = ⟨(c :: cs).drop 3⟩
        rw [replaceFirstAux, if_pos hpre]
        rfl
  · intro h
    rw [resolveTarget, if_neg (by simp [h])]

theorem C6_amended_resolveTarget_witness :
    resolveTarget "../media/image1.png" = "ppt/" ++ ⟨("../media/image1.png").data.drop 3⟩ :=
  (C6_amended_resolveTarget "../media/image1.png").1 (by decide)

theorem map_filterMap_eq_map {α β γ : Type _} (f : α → Option β) (g : β → γ) (h : α → γ) :
    ∀ l : List α, (∀ a ∈ l, (f a).isSome = true) →
      (∀ a ∈ l, ∀ b, f a = some b → g b = h a) →
      (l.filterMap f).map g = l.map h := by
  intro l
  induction l with
  | nil => intro _ _; rfl
  | cons a l ih =>
      intro hall hgh
      cases hfa : f a with
      | none =>
          have := hall a (by simp)
          rw [hfa] at this
          exact absurd this (by simp)
      | some b =>
          simp only [List.filterMap_cons, hfa, List.map_cons]
          rw [hgh a (by simp) b hfa,
            ih (fun x hx => hall x (by simp [hx])) (fun x hx => hgh x (by simp [hx]))]

theorem importEntry_slideNumber (relTarget fileData : String → Option String)
    (p : String) (s : Slide) (h : importEntry relTarget fileData p = some s) :
    s.slideNumber = slideNumOf p := by
  unfold importEntry at h
  split at h
  · exact absurd h (by simp)
  · split at h
    · exact absurd h (by simp)
    · split at h
      · exact absurd h (by simp)
      · cases h
        rfl

/-- C5: import orders slide documents by the numeric value of their trailing
numeral, not lexicographically: whenever the matching slide
documents carry the numerals 1..12 (in any directory-listing order) and each
of them resolves to an image, the imported entries appear with slide numbers
exactly 1, 2, ..., 12 in that order. -/
theorem C5_import_numeric_order (keys : List String)
    (relTarget fileData : String → Option String)
    (hnums : ((keys.filter isSlidePath).map slideNumOf).Perm (List.range' 1 12))
    (hres : ∀ p ∈ slideFiles keys, (importEntry relTarget fileData p).isSome = true) :
    (importSlides keys relTarget fileData).map Slide.slideNumber = List.range' 1 12 := by
  have htrans : ∀ a b c : String,
      (decide (slideNumOf a ≤ slideNumOf b)) = true →
      (decide (slideNumOf b ≤ slideNumOf c)) = true →
      (decide (slideNumOf a ≤ slideNumOf c)) = true := by
    intro a b c hab hbc
    simp only [decide_eq_true_eq] at *
    omega
  have htotal : ∀ a b : String,
      ((decide (slideNumOf a ≤ slideNumOf b)) ||
        (decide (slideNumOf b ≤ slideNumOf a))) = true := by
    intro a b
    simp only [Bool.or_eq_true, decide_eq_true_eq]
    exact Nat.le_total _ _
  have hp := @List.sorted_mergeSort String
    (fun a b => decide (slideNumOf a ≤ slideNumOf b)) htrans htotal
    (keys.filter isSlidePath)
  have hsorted : (slideFiles keys).Pairwise (fun a b => slideNumOf a ≤ slideNumOf b) := by
    refine (List.Pairwise.imp ?_ hp)
    intro a b hab
    simpa using hab
  have hsorted2 : List.Sorted (· ≤ ·) ((slideFiles keys).map slideNumOf) :=
    List.pairwise_map.mpr hsorted
  have hr12 : List.Sorted (· ≤ ·) (List.range' 1 12) := by decide
  have hmapnum : (slideFiles keys).map slideNumOf = List.range' 1 12 :=
    List.eq_of_perm_of_sorted
      (((List.mergeSort_perm (keys.filter isSlidePath) _).map slideNumOf).trans hnums)
      hsorted2 hr12
  rw [importSlides,
    map_filterMap_eq_map (importEntry relTarget fileData) Slide.slideNumber slideNumOf
      (slideFiles keys) hres
      (fun p _ b hb => importEntry_slideNumber relTarget fileData p b hb)]
  exact hmapnum

/-- A container listing with slide documents 1..12 deliberately out of lexical
order (10, 11, 12 listed before 2), plus non-slide entries. -/
def wKeys : List String :=
  ["ppt/presentation.xml", "ppt/slides/slide10.xml", "ppt/slides/slide11.xml",
   "ppt/slides/slide12.xml", "ppt/slides/slide2.xml", "ppt/slides/slide1.xml",
   "ppt/slides/slide3.xml", "ppt/slides/slide4.xml", "ppt/slides/slide5.xml",
   "ppt/slides/slide6.xml", "ppt/slides/slide7.xml", "ppt/slides/slide8.xml",
   "ppt/slides/slide9.xml", "ppt/slides/_rels/slide1.xml.rels"]

/-- A relationship oracle whose every slide document points at the shared
media image. -/
def wRel : String → Option String := fun _ => some "../media/image1.png"

/-- A container-content oracle holding the same base64 payload everywhere. -/
def wFile : String → Option String := fun _ => some "QUFB"

theorem C5_import_numeric_order_witness :
    (importSlides wKeys wRel wFile).map Slide.slideNumber = List.range' 1 12 :=
  C5_import_numeric_order wKeys wRel wFile (by decide) (fun p _ => rfl)

end ProDeck
